import Mathlib

/-!
Verification of the aurora compiler's documented behavior against a shallow
embedding of its source.  Each section embeds one part of the C++ source
(file and line references in the doc comments) as executable Lean
definitions, and the theorems at the end of the file settle the documented
claims about them.
-/

namespace Aurora

/-! ## The type system (src/compiler/include/aurora/Type.h, src/compiler/src/types/Type.cpp)

A type is one of Void, Int, Double, Bool, String, Optional(T), Array(T),
Function(ret, params...), Class(name).  Each type answers a mangled tag and
structural equality. -/

inductive AType where
  | voidT
  | intT
  | doubleT
  | boolT
  | stringT
  | optionalT (innerType : AType)
  | arrayT (elementType : AType)
  | functionT (returnType : AType) (paramTypes : List AType)
  | classT (name : String)

/-- Type::isVoid etc. — the constructor discriminators used by the source. -/
def AType.isVoid : AType → Bool
  | .voidT => true
  | _ => false

def AType.isOptional : AType → Bool
  | .optionalT _ => true
  | _ => false

def AType.isArray : AType → Bool
  | .arrayT _ => true
  | _ => false

mutual

/-- getMangledName (Type.cpp): "v","i","d","b","s" for primitives,
"o" + inner for Optional, "a" + elem for Array,
"f" + concatenated params + "r" + return for Function (lines 124-131),
"c" + name for Class (lines 230-232). -/
def mangledName : AType → String
  | .voidT => "v"
  | .intT => "i"
  | .doubleT => "d"
  | .boolT => "b"
  | .stringT => "s"
  | .optionalT innerType => "o" ++ mangledName innerType
  | .arrayT elementType => "a" ++ mangledName elementType
  | .functionT returnType paramTypes =>
      "f" ++ mangledParams paramTypes ++ "r" ++ mangledName returnType
  | .classT name => "c" ++ name

/-- The loop in FunctionType::getMangledName (Type.cpp 126-128): each
parameter's mangled name appended in order, with no separator. -/
def mangledParams : List AType → String
  | [] => ""
  | p :: ps => mangledName p ++ mangledParams ps

end

mutual

/-- Type::equals (Type.cpp): structural equality.  Primitives compare by
constructor; Optional/Array compare inner types; Function compares parameter
count, return type and each parameter (lines 133-142); Class compares names
(lines 234-238). -/
def typeEquals : AType → AType → Bool
  | .voidT, .voidT => true
  | .intT, .intT => true
  | .doubleT, .doubleT => true
  | .boolT, .boolT => true
  | .stringT, .stringT => true
  | .optionalT i1, .optionalT i2 => typeEquals i1 i2
  | .arrayT e1, .arrayT e2 => typeEquals e1 e2
  | .functionT r1 ps1, .functionT r2 ps2 => typeEquals r1 r2 && paramsEqual ps1 ps2
  | .classT n1, .classT n2 => n1 == n2
  | _, _ => false

/-- FunctionType::equals on the parameter lists: the size check plus the
elementwise equals loop (Type.cpp 136-140). -/
def paramsEqual : List AType → List AType → Bool
  | [], [] => true
  | p :: ps, q :: qs => typeEquals p q && paramsEqual ps qs
  | _, _ => false

end

/-! ## Method and constructor name mangling
(src/compiler/src/codegen/ClassCodeGen.cpp) -/

/-- A method parameter (include/aurora/AST.h, struct Parameter). -/
structure Param where
  name : String
  type : AType

/-- A method declaration, the fields mangling depends on
(include/aurora/AST.h, struct MethodDecl). -/
structure MethodSig where
  name : String
  params : List Param
  isConstructor : Bool

/-- The parameter-tag suffix loop shared by MethodDecl::codegen
(ClassCodeGen.cpp 470-476) and NewExpr::codegen (342-348):
a leading "_" then the tags joined by "_". -/
def paramTagSuffix (params : List Param) : String :=
  "_" ++ String.intercalate "_" (params.map (fun p => mangledName p.type))

/-- Definition-site mangling, MethodDecl::codegen (ClassCodeGen.cpp 463-476):
ClassName_methodName, plus parameter tags when the method is a constructor
with a non-empty parameter list. -/
def methodMangledName (className : String) (m : MethodSig) : String :=
  let base := className ++ "_" ++ m.name
  if m.isConstructor && !m.params.isEmpty then
    base ++ paramTagSuffix m.params
  else
    base

/-- Call-site mangling for the resolved constructor, NewExpr::codegen
(ClassCodeGen.cpp 340-348): ClassName_constructor, plus parameter tags when
the resolved constructor's parameter list is non-empty. -/
def newExprCtorMangledName (className : String) (ctor : MethodSig) : String :=
  let base := className ++ "_constructor"
  if !ctor.params.isEmpty then
    base ++ paramTagSuffix ctor.params
  else
    base

/-- Modelled from the spec's words for comparison (claim C2): parameter-type
tags are appended to Class_constructor only when the class has multiple
constructors; with a single constructor the tags are omitted. -/
def specCtorMangledName (className : String) (ctor : MethodSig)
    (numConstructorsInClass : Nat) : String :=
  if numConstructorsInClass > 1 then
    className ++ "_constructor" ++ paramTagSuffix ctor.params
  else
    className ++ "_constructor"

/-! ## LLVM types as the emitter sees them
(Type::toLLVMType, src/compiler/src/types/Type.cpp) -/

inductive LType where
  | i1
  | i8
  | i32
  | i64
  | doubleT
  | ptr
  | voidT
  | structT (fields : List LType)
  | funcT (ret : LType) (params : List LType)

/-- llvm::Type::isPointerTy. -/
def LType.isPointerTy : LType → Bool
  | .ptr => true
  | _ => false

/-- llvm::Type::isIntegerTy (any width). -/
def LType.isIntegerTy : LType → Bool
  | .i1 => true
  | .i8 => true
  | .i32 => true
  | .i64 => true
  | _ => false

/-- llvm::Type::isIntegerTy(1). -/
def LType.isIntegerTy1 : LType → Bool
  | .i1 => true
  | _ => false

/-- llvm::Type::isDoubleTy. -/
def LType.isDoubleTy : LType → Bool
  | .doubleT => true
  | _ => false

mutual

/-- Type::toLLVMType per variant (Type.cpp): Void → void, Int → i64,
Double → double, Bool → i1, String → ptr, Optional(T) → {i1, T} with an i8
payload when T is Void (lines 79-89), Array(T) → {i64, ptr} (lines 204-210),
Function → llvm FunctionType, Class → opaque ptr. -/
def toLLVMType : AType → LType
  | .voidT => .voidT
  | .intT => .i64
  | .doubleT => .doubleT
  | .boolT => .i1
  | .stringT => .ptr
  | .optionalT innerType =>
      .structT [.i1, if innerType.isVoid then .i8 else toLLVMType innerType]
  | .arrayT _ => .structT [.i64, .ptr]
  | .functionT returnType paramTypes =>
      .funcT (toLLVMType returnType) (toLLVMTypeList paramTypes)
  | .classT _ => .ptr

def toLLVMTypeList : List AType → List LType
  | [] => []
  | p :: ps => toLLVMType p :: toLLVMTypeList ps

end

/-- An LLVM value as the expression emitter inspects it: its type, and
whether it is a constant for which Constant::isNullValue holds (the
isNullConstant lambda in BinaryExpr::codegen, ExprCodeGen.cpp 219-224). -/
structure IRValue where
  ty : LType
  isNullConst : Bool := false

/-! ## AST expression types (include/aurora/AST.h) and their getType
accessors (src/compiler/src/codegen/ExprCodeGen.cpp) -/

/-- BinaryExpr::Op (include/aurora/AST.h 115-126). -/
inductive BOp where
  | add | sub | mul | div | mod
  | less | greater | lessEq | greaterEq | equal | notEqual
  | and | or
  | bitwiseAnd | bitwiseOr | bitwiseXor | leftShift | rightShift
  | nullCoalesce
deriving DecidableEq

/-- UnaryExpr::Op (include/aurora/AST.h 147-151). -/
inductive UOp where
  | not | neg | bitwiseNot
deriving DecidableEq

/-- The expression variants whose getType accessors the claims exercise. -/
inductive AExpr where
  | intLit (value : Int)
  | doubleLit
  | boolLit (value : Bool)
  | binary (op : BOp) (left right : AExpr)
  | unary (op : UOp) (expr : AExpr)

/-- The getType accessors (ExprCodeGen.cpp): IntLiteralExpr → Int (38-40),
DoubleLiteralExpr → Double (49-51), BoolExpr → Bool (61-63); BinaryExpr
returns the Double type unconditionally (376-378); UnaryExpr returns its
operand's type (409-411). -/
def exprGetType : AExpr → AType
  | .intLit _ => .intT
  | .doubleLit => .doubleT
  | .boolLit _ => .boolT
  | .binary _ _ _ => .doubleT
  | .unary _ e => exprGetType e

/-- Array-literal element-type inference in Parser::parsePrimary
(Parser.cpp 762-772): the element type is the first element's getType, or
Int for an empty literal; the literal's type is Array of it. -/
def arrayLiteralType (elements : List AExpr) : AType :=
  match elements with
  | [] => .arrayT .intT
  | e :: _ => .arrayT (exprGetType e)

/-! ## Parser: the for statement (src/compiler/src/parser/Parser.cpp 352-382) -/

/-- The token kinds Parser::parseForStatement consumes directly
(include/aurora/Lexer.h). -/
inductive TokenType where
  | For
  | In
  | DotDot
  | Identifier
  | Other
deriving DecidableEq

structure Token where
  type : TokenType
  value : String

/-- Parser::expect — consume the current token if it has the expected type,
otherwise raise a parse error that aborts the compilation (modelled as
Option.none). -/
def expectTok (tt : TokenType) : List Token → Option (List Token)
  | [] => none
  | t :: rest => if t.type = tt then some rest else none

/-- The ForStmt node (include/aurora/AST.h 422-439): stepExpr is nullable and
defaults to 1 during code generation. -/
structure ForStmtNode (Expr Stmt : Type) where
  varName : String
  startExpr : Expr
  endExpr : Expr
  stepExpr : Option Expr
  body : List Stmt

/-- Parser::parseForStatement (Parser.cpp 352-382): expects For, a loop
variable identifier, In, a start expression, DotDot, an end expression and a
body block; the step expression is never parsed — the source sets
stepExpr = nullptr with the comment "Optional step (not implemented yet,
defaults to 1)" (lines 373-374).  The sub-parsers parseExpression and
parseBlock are abstracted as parameters. -/
def parseForStatement {Expr Stmt : Type}
    (parseExpression : List Token → Option (Expr × List Token))
    (parseBlock : List Token → Option (List Stmt × List Token))
    (toks : List Token) : Option (ForStmtNode Expr Stmt × List Token) :=
  match expectTok .For toks with
  | none => none
  | some toks1 =>
    match toks1 with
    | [] => none
    | t :: rest =>
      if t.type = .Identifier then
        match expectTok .In rest with
        | none => none
        | some toks2 =>
          match parseExpression toks2 with
          | none => none
          | some (startExpr, toks3) =>
            match expectTok .DotDot toks3 with
            | none => none
            | some toks4 =>
              match parseExpression toks4 with
              | none => none
              | some (endExpr, toks5) =>
                match parseBlock toks5 with
                | none => none
                | some (body, toks6) =>
                  some (⟨t.value, startExpr, endExpr, none, body⟩, toks6)
      else
        none

/-! ## Code generation: the for-loop step value
(src/compiler/src/codegen/StmtCodeGen.cpp 306-336) -/

/-- The increment operand built in the forstep block.  With a step
expression its generated value is used (after int/double conversion); with
none, the source builds ConstantInt(APInt(64, 1, true)) for integer loop
variables and ConstantFP(APFloat(1.0)) otherwise (lines 322-328). -/
inductive StepOperand where
  | constInt (value : Int)
  | constDouble (value : ℚ)
  | fromStepExpr (v : IRValue)

/-- ForStmt::codegen step selection (StmtCodeGen.cpp 312-328), as a function
of the loop variable's LLVM type and the optional step expression's value. -/
def forStepOperand (varLLVMType : LType) (stepExprVal : Option IRValue) :
    StepOperand :=
  match stepExprVal with
  | some v => .fromStepExpr v
  | none =>
      if varLLVMType.isIntegerTy then .constInt 1 else .constDouble 1

/-! ## Code generation: scope-tracked releases
(src/compiler/src/codegen/CodeGen.cpp 71-180,
 src/compiler/src/codegen/StmtCodeGen.cpp 24-135) -/

/-- One tracked (name, value) pair of CodeGenContext::ScopeVariables
(include/aurora/CodeGen.h 92-94).  Every value tracked by VarDeclStmt is an
alloca; allocatedType is its AllocaInst::getAllocatedType. -/
structure TrackedVar where
  name : String
  allocatedType : LType

/-- A scope of the ARC scope stack; vars holds the source's variables
vector, in declaration order (trackVariable push_back). -/
structure Scope where
  vars : List TrackedVar

/-- CodeGenContext::needsMemoryManagement (CodeGen.cpp 177-180): only
pointer types need memory management. -/
def needsMemoryManagement (t : LType) : Bool :=
  t.isPointerTy

/-- CodeGenContext::trackVariable (CodeGen.cpp 83-87).  The tracked value is
the variable's alloca, whose own LLVM type is ptr, so the
needsMemoryManagement guard on it always passes; the pair is appended to the
top scope. -/
def trackVariable (scope : Scope) (name : String) (allocatedType : LType) :
    Scope :=
  if needsMemoryManagement .ptr then
    { vars := scope.vars ++ [⟨name, allocatedType⟩] }
  else
    scope

/-- The instructions CodeGenContext::insertRelease can emit. -/
inductive RelInstr where
  | load (name : String)
  | callRelease (name : String)
deriving DecidableEq

/-- CodeGenContext::insertRelease on a tracked alloca (CodeGen.cpp 113-156):
when the alloca's allocated type is a pointer type, load the stored pointer
and call aurora_release on it; otherwise return without emitting anything
("Not a pointer type, nothing to release", lines 140-143). -/
def insertRelease (v : TrackedVar) : List RelInstr :=
  if v.allocatedType.isPointerTy then
    [.load v.name, .callRelease v.name]
  else
    []

/-- CodeGenContext::releaseAllInScope (CodeGen.cpp 158-175): nothing when
the scope stack is empty or the current block already has a terminator (or
there is no insertion point); otherwise insertRelease for each variable of
the top scope in reverse (LIFO) order.  The stack top is the head of the
list. -/
def releaseAllInScope (scopeStack : List Scope)
    (blockHasTerminator : Bool) : List RelInstr :=
  match scopeStack with
  | [] => []
  | top :: _ =>
      if blockHasTerminator then []
      else (top.vars.reverse).flatMap insertRelease

/-- The tracking decision of VarDeclStmt::codegen (StmtCodeGen.cpp 115-133):
the alloca's allocated type is the declared type's LLVM lowering (the init
value's type when no declared type is present), and the variable is passed
to trackVariable only when the declared type is an ArrayType ("Only track
arrays for now"). -/
def varDeclTrack (scope : Scope) (name : String) (declType : Option AType) :
    Scope :=
  match declType with
  | some (.arrayT e) => trackVariable scope name (toLLVMType (.arrayT e))
  | _ => scope

/-- ReturnStmt::codegen (StmtCodeGen.cpp 24-87) releases all scope-tracked
variables and then emits the ret terminator; this is the instruction list
placed immediately before the ret. -/
def returnStmtReleases (scopeStack : List Scope)
    (blockHasTerminator : Bool) : List RelInstr :=
  releaseAllInScope scopeStack blockHasTerminator

/-- The number of aurora_release calls in an emitted instruction list. -/
def releaseCallCount (l : List RelInstr) : Nat :=
  l.countP (fun i => match i with
    | .callRelease _ => true
    | _ => false)

/-! ## Code generation: short-circuit logical operators
(BinaryExpr::codegen, src/compiler/src/codegen/ExprCodeGen.cpp 162-204) -/

/-- The convertToBool helper (ExprCodeGen.cpp 19-29): an i1 value is
unchanged; any other integer is compared icmp ne 0; anything else is
compared fcmp une 0.0. -/
inductive BoolConv where
  | already (v : IRValue)
  | icmpNE0 (v : IRValue)
  | fcmpUNE0 (v : IRValue)

def convertToBool (v : IRValue) : BoolConv :=
  if v.ty.isIntegerTy1 then .already v
  else if v.ty.isIntegerTy then .icmpNE0 v
  else .fcmpUNE0 v

/-- The blocks of the short-circuit construction: the block current when the
left operand finished (lhsBlock), plus the created rhs and merge blocks. -/
inductive SCBlock where
  | entry
  | rhs
  | merge
deriving DecidableEq

/-- A phi incoming value of the short-circuit merge block. -/
inductive PhiIn where
  | constFalse
  | constTrue
  | rhsValue
deriving DecidableEq

/-- The structure BinaryExpr::codegen emits for && and ||
(ExprCodeGen.cpp 172-203): two created blocks, one conditional branch on the
converted left operand, and an i1 phi with two incomings at merge. -/
structure ShortCircuitEmission where
  createdBlocks : List SCBlock
  condBrTrue : SCBlock
  condBrFalse : SCBlock
  phiType : LType
  phiIncoming : List (PhiIn × SCBlock)

/-- The emission for op ∈ {And, Or} (ExprCodeGen.cpp 166-203): for And the
branch is CondBr(L_bool, rhs, merge) and the phi takes constant false from
the entry block; for Or the branch is CondBr(L_bool, merge, rhs) and the phi
takes constant true from the entry block; both take the converted right
operand from the rhs block.  Other operators do not reach this path. -/
def emitShortCircuit (op : BOp) : Option ShortCircuitEmission :=
  if op = .and then
    some { createdBlocks := [.rhs, .merge]
           condBrTrue := .rhs
           condBrFalse := .merge
           phiType := .i1
           phiIncoming := [(.constFalse, .entry), (.rhsValue, .rhs)] }
  else if op = .or then
    some { createdBlocks := [.rhs, .merge]
           condBrTrue := .merge
           condBrFalse := .rhs
           phiType := .i1
           phiIncoming := [(.constTrue, .entry), (.rhsValue, .rhs)] }
  else
    none

/-- Phi semantics: select the incoming value for the predecessor block the
control arrived from; rhsVal is the runtime value of the converted right
operand. -/
def phiSelect (incoming : List (PhiIn × SCBlock)) (pred : SCBlock)
    (rhsVal : Bool) : Bool :=
  match incoming.find? (fun p => p.2 = pred) with
  | some (.constFalse, _) => false
  | some (.constTrue, _) => true
  | some (.rhsValue, _) => rhsVal
  | none => false

/-- Execution of the emitted short-circuit CFG under LLVM's semantics:
branch on the left operand's boolean value; the right operand is evaluated
(with its side effects) only if control reaches the rhs block; the merge phi
selects by predecessor.  rhsEval is the effect list and boolean value of
evaluating and converting the right operand. -/
def execShortCircuit (e : ShortCircuitEmission) (lhsBool : Bool)
    (rhsEval : List String × Bool) : List String × Bool :=
  let target := if lhsBool then e.condBrTrue else e.condBrFalse
  match target with
  | .rhs => (rhsEval.1, phiSelect e.phiIncoming .rhs rhsEval.2)
  | .merge => ([], phiSelect e.phiIncoming .entry rhsEval.2)
  | .entry => ([], false)

/-! ## Code generation: optional comparisons
(BinaryExpr::codegen, src/compiler/src/codegen/ExprCodeGen.cpp 216-255) -/

/-- Which operand's has_value flag is extracted. -/
inductive OptSide where
  | left
  | right
deriving DecidableEq

/-- The value produced for an optional-vs-null comparison: extractvalue of
the optional's has_value field (index 0), icmp eq against false, and a
negating not for the != operator. -/
structure OptCmpValue where
  side : OptSide
  cmpEqFalse : Bool
  negated : Bool
deriving DecidableEq

/-- Outcome of the optional-comparison section. -/
inductive BinOptOutcome where
  | notOptionalPath
  | diagnostic (msg : String)
  | value (v : OptCmpValue)
deriving DecidableEq

/-- The optional-comparison section of BinaryExpr::codegen
(ExprCodeGen.cpp 216-255), reached after the short-circuit operators are
handled.  leftTy and rightTy are the operands' AST types (Expr::getType);
L and R their generated values.  When either side is optional: operators
other than == and != are rejected; an optional left against a null-constant
right extracts the left has_value (and symmetrically); anything else is
rejected.  The != result is negated (lines 251-253). -/
def binaryOptionalPath (op : BOp) (leftTy rightTy : AType) (L R : IRValue) :
    BinOptOutcome :=
  let leftOptional := leftTy.isOptional
  let rightOptional := rightTy.isOptional
  if leftOptional || rightOptional then
    if op ≠ .equal ∧ op ≠ .notEqual then
      .diagnostic "Optional values only support == or != comparisons"
    else if leftOptional && R.isNullConst then
      .value ⟨.left, true, op = .notEqual⟩
    else if rightOptional && L.isNullConst then
      .value ⟨.right, true, op = .notEqual⟩
    else
      .diagnostic "Optional comparisons currently support only comparisons against null"
  else
    .notOptionalPath

/-! ## Code generation: loops and break/continue
(src/compiler/src/codegen/StmtCodeGen.cpp 206-244 and 385-407,
 src/compiler/src/codegen/CodeGen.cpp 49-65) -/

/-- LoopContext (include/aurora/CodeGen.h 20-27), generic in the block
representation. -/
structure LoopContext (Block : Type) where
  breakTarget : Block
  continueTarget : Block

/-- CodeGenContext::getCurrentLoop (CodeGen.cpp 60-65): nullptr when the
loop stack is empty, else the innermost (most recently pushed) context.
pushLoopContext is modelled as consing onto the head. -/
def getCurrentLoop {Block : Type} (loopStack : List (LoopContext Block)) :
    Option (LoopContext Block) :=
  loopStack.head?

/-- Result of BreakStmt::codegen / ContinueStmt::codegen: either a reported
diagnostic with no emitted instruction, or an unconditional branch. -/
inductive BranchResult (Block : Type) where
  | diagnostic (msg : String)
  | br (target : Block)

/-- BreakStmt::codegen (StmtCodeGen.cpp 385-394). -/
def breakStmtCodegen {Block : Type}
    (loopStack : List (LoopContext Block)) : BranchResult Block :=
  match getCurrentLoop loopStack with
  | none => .diagnostic "break statement must be inside a loop (while, for, or loop)"
  | some loop => .br loop.breakTarget

/-- ContinueStmt::codegen (StmtCodeGen.cpp 398-407). -/
def continueStmtCodegen {Block : Type}
    (loopStack : List (LoopContext Block)) : BranchResult Block :=
  match getCurrentLoop loopStack with
  | none => .diagnostic "continue statement must be inside a loop (while, for, or loop)"
  | some loop => .br loop.continueTarget

/-- The blocks created by WhileStmt::codegen. -/
inductive WBlock where
  | whilecond
  | whilebody
  | afterwhile
deriving DecidableEq

/-- The comparison instruction applied to the while condition value. -/
inductive CondCmp where
  | fcmpONE0 (v : IRValue)
  | icmpNE0 (v : IRValue)

/-- The structure WhileStmt::codegen emits (StmtCodeGen.cpp 206-244): the
three created blocks, the pushed loop context (break → afterwhile,
continue → whilecond), the comparison of the condition value against the
floating constant 0.0 — CreateFCmpONE unconditionally, whatever the
condition's type (lines 223-224) — the conditional branch, and the back
edge from the body when its last block lacks a terminator. -/
structure WhileEmission where
  createdBlocks : List WBlock
  pushedContext : LoopContext WBlock
  condCompare : CondCmp
  condBrTrue : WBlock
  condBrFalse : WBlock
  backEdge : Option WBlock

def whileStmtCodegen (condVal : IRValue) (bodyEndsTerminated : Bool) :
    WhileEmission :=
  { createdBlocks := [.whilecond, .whilebody, .afterwhile]
    pushedContext := ⟨.afterwhile, .whilecond⟩
    condCompare := .fcmpONE0 condVal
    condBrTrue := .whilebody
    condBrFalse := .afterwhile
    backEdge := if bodyEndsTerminated then none else some .whilecond }

/-! ## Module loading (src/compiler/src/ast/ModuleLoader.cpp)

Parsing and code generation of a loaded file are orthogonal to the
loaded-set discipline and always succeed in this model; the files actually
opened and parsed are logged instead. -/

/-- What ImportDecl::load extracts from a parsed module file: the package
declaration and the sub-imports (ModuleLoader.cpp 142-157). -/
structure ModuleSource where
  packageName : Option String
  subImports : List String

/-- The file system, as consulted through std::filesystem::exists and
ifstream: the set of existing .aur files with their parsed content. -/
structure FileSystem where
  files : List (String × ModuleSource)

def FileSystem.existsFile (fs : FileSystem) (p : String) : Bool :=
  fs.files.any (fun f => f.1 == p)

def FileSystem.readFile (fs : FileSystem) (p : String) : Option ModuleSource :=
  (fs.files.find? (fun f => f.1 == p)).map Prod.snd

/-- The loader's mutable state: the process-wide static
std::set loadedModules (ModuleLoader.cpp 15), and a log of the files that
were actually opened, parsed and code-generated, in order. -/
structure LoaderState where
  loadedModules : List String
  parseLog : List String

/-- std::string::find(c) != npos, over the character list. -/
def containsChar (s : String) (c : Char) : Bool :=
  s.toList.contains c

/-- std::filesystem::path::parent_path for the slash-separated paths the
loader builds: everything before the last separator, empty when there is
none. -/
def parentPath (p : String) : String :=
  let rev := p.toList.reverse
  if rev.contains '/' then
    String.mk (((rev.dropWhile (fun c => c ≠ '/')).drop 1).reverse)
  else
    ""

/-- std::filesystem::path::operator/ on the loader's paths. -/
def joinPath (dir file : String) : String :=
  if dir = "" then file else dir ++ "/" ++ file

/-- The global package search paths (ModuleLoader.cpp 18). -/
def packageSearchPaths : List String :=
  [".", "src", "stdlib/aurora"]

/-- ImportDecl::load lines 41-44: a package-style import contains dots but
no slashes. -/
def isPackageImport (modulePath : String) : Bool :=
  containsChar modulePath '.' && !containsChar modulePath '/'
    && !(containsChar modulePath '\\')

/-- The std::replace of every dot by a slash (ModuleLoader.cpp 49-50). -/
def dotsToSlashes (s : String) : String :=
  String.mk (s.toList.map (fun c => if c = '.' then '/' else c))

/-- The check of ModuleLoader.cpp 58-61: the path already ends in ".aur". -/
def endsWithAur (p : String) : Bool :=
  ".aur".toList.isSuffixOf p.toList

/-- ImportDecl::load lines 37-65: the .aur file path derived from the
module path, before resolution. -/
def moduleFilePath (modulePath : String) : String :=
  if isPackageImport modulePath then
    dotsToSlashes modulePath ++ ".aur"
  else if containsChar modulePath '/' || containsChar modulePath '\\' then
    if endsWithAur modulePath then modulePath else modulePath ++ ".aur"
  else
    modulePath ++ ".aur"

/-- ImportDecl::load lines 67-126: resolve the file path.  Package imports
try the current file's directory, then the package search paths, then the
path itself; other imports use the path itself, falling back to the current
file's directory when it does not exist.  none models the
module-not-found error return. -/
def resolveImport (fs : FileSystem) (modulePath currentFile : String) :
    Option String :=
  let filePath := moduleFilePath modulePath
  if isPackageImport modulePath then
    if currentFile ≠ "" && fs.existsFile (joinPath (parentPath currentFile) filePath) then
      some (joinPath (parentPath currentFile) filePath)
    else
      match packageSearchPaths.find? (fun sp => fs.existsFile (sp ++ "/" ++ filePath)) with
      | some sp => some (sp ++ "/" ++ filePath)
      | none => if fs.existsFile filePath then some filePath else none
  else
    let resolved :=
      if currentFile ≠ "" && !fs.existsFile filePath then
        joinPath (parentPath currentFile) filePath
      else filePath
    if fs.existsFile resolved then some resolved else none

/-- The sub-import loop of ImportDecl::load (lines 159-165), abstracted
over the recursive load of a single module: load each sub-import in order;
a failure aborts. -/
def loadSubImports
    (loadOne : String → String → LoaderState → Bool × LoaderState)
    (ms : List String) (currentFile : String) (st : LoaderState) :
    Bool × LoaderState :=
  match ms with
  | [] => (true, st)
  | m :: rest =>
    match loadOne m currentFile st with
    | (false, st1) => (false, st1)
    | (true, st1) => loadSubImports loadOne rest currentFile st1

/-- ImportDecl::load (ModuleLoader.cpp 28-199).  An already-loaded module
path returns true immediately (lines 31-35).  Otherwise the path is
resolved, the file read and parsed, the sub-imports loaded recursively with
the resolved path as the new current file (lines 159-165), the module's
classes and functions code-generated, and finally — only on success — the
original modulePath string is inserted into loadedModules (line 190).
fuel bounds the recursion depth. -/
def loadImport (fs : FileSystem) (fuel : Nat) (modulePath currentFile : String)
    (st : LoaderState) : Bool × LoaderState :=
  match fuel with
  | 0 => (false, st)
  | fuel + 1 =>
    if st.loadedModules.contains modulePath then
      (true, st)
    else
      match resolveImport fs modulePath currentFile with
      | none => (false, st)
      | some resolvedPath =>
        match fs.readFile resolvedPath with
        | none => (false, st)
        | some src =>
          let st1 : LoaderState := { st with parseLog := st.parseLog ++ [resolvedPath] }
          match loadSubImports (loadImport fs fuel) src.subImports resolvedPath st1 with
          | (false, st2) => (false, st2)
          | (true, st2) =>
              (true, { st2 with loadedModules := st2.loadedModules ++ [modulePath] })

/-- The file system of the module-loading scenario used in the theorems
below: two distinct files d/m.aur and e/m.aur that are both imported by
the simple module path "m" from sibling files. -/
def demoFS : FileSystem :=
  ⟨[("d/m.aur", ⟨none, []⟩), ("e/m.aur", ⟨none, []⟩)]⟩

/-! ## Theorems -/

mutual

/-- Structural equality is respected by the mangling function: equal types
mangle to the same string. -/
theorem mangledName_eq_of_typeEquals (t1 t2 : AType)
    (h : typeEquals t1 t2 = true) : mangledName t1 = mangledName t2 := by
  rw [typeEquals.eq_def] at h
  split at h
  · rfl
  · rfl
  · rfl
  · rfl
  · rfl
  case _ i1 i2 =>
    simp only [mangledName]
    rw [mangledName_eq_of_typeEquals i1 i2 h]
  case _ e1 e2 =>
    simp only [mangledName]
    rw [mangledName_eq_of_typeEquals e1 e2 h]
  case _ r1 ps1 r2 ps2 =>
    simp only [Bool.and_eq_true] at h
    simp only [mangledName]
    rw [mangledName_eq_of_typeEquals r1 r2 h.1,
        mangledParams_eq_of_paramsEqual ps1 ps2 h.2]
  case _ n1 n2 =>
    simp only [mangledName]
    rw [eq_of_beq h]
  · exact absurd h (by simp)
termination_by sizeOf t1

theorem mangledParams_eq_of_paramsEqual (l1 l2 : List AType)
    (h : paramsEqual l1 l2 = true) : mangledParams l1 = mangledParams l2 := by
  rw [paramsEqual.eq_def] at h
  split at h
  · rfl
  case _ p ps q qs =>
    simp only [Bool.and_eq_true] at h
    simp only [mangledParams]
    rw [mangledName_eq_of_typeEquals p q h.1,
        mangledParams_eq_of_paramsEqual ps qs h.2]
  · exact absurd h (by simp)
termination_by sizeOf l1

end

/-- C1.  The claim says a Return in a scope tracking K pointer variables
(array-typed declarations) emits exactly K aurora_release calls before the
ret.  Evaluating the code at the failing input — one tracked array variable
in scope, a Return in a non-terminated block — shows the variable is
tracked (K = 1) yet the instruction list emitted before the ret is empty:
insertRelease skips the variable because its alloca's allocated type is the
array struct of i64 and ptr, not a pointer type, so 0 release calls are
emitted instead of 1. -/
theorem c1_return_release_at_failing_input :
    (varDeclTrack ⟨[]⟩ "a" (some (.arrayT .intT))).vars =
      [⟨"a", .structT [.i64, .ptr]⟩] ∧
    returnStmtReleases [varDeclTrack ⟨[]⟩ "a" (some (.arrayT .intT))] false = [] ∧
    releaseCallCount
      (returnStmtReleases [varDeclTrack ⟨[]⟩ "a" (some (.arrayT .intT))] false) = 0 :=
  ⟨rfl, rfl, rfl⟩

/-- C2 counterexample.  A class C with a single constructor taking one int
parameter: the claim predicts the parameter-type tags are omitted from the
constructor's symbol (spec-modelled mangling for one constructor), but
MethodDecl::codegen emits C_constructor_i — it appends the tags whenever
the constructor has parameters, regardless of the number of constructors. -/
theorem c2_counterexample :
    methodMangledName "C" ⟨"constructor", [⟨"x", .intT⟩], true⟩ =
      "C_constructor_i" ∧
    specCtorMangledName "C" ⟨"constructor", [⟨"x", .intT⟩], true⟩ 1 =
      "C_constructor" ∧
    methodMangledName "C" ⟨"constructor", [⟨"x", .intT⟩], true⟩ ≠
      specCtorMangledName "C" ⟨"constructor", [⟨"x", .intT⟩], true⟩ 1 :=
  ⟨rfl, rfl, by decide⟩

/-- C2 (amended).  A method's emitted symbol is Class_name when it is not a
constructor or has no parameters; a constructor's symbol appends the
parameter-type tags exactly when its parameter list is non-empty,
independently of how many constructors the class has; and the definition
site agrees with the call-site mangling NewExpr uses for the resolved
constructor. -/
theorem c2_constructor_mangling (className : String) (m : MethodSig) :
    (m.isConstructor = false ∨ m.params = [] →
        methodMangledName className m = className ++ "_" ++ m.name) ∧
    (m.isConstructor = true → m.name = "constructor" →
        methodMangledName className m = newExprCtorMangledName className m) ∧
    (m.isConstructor = true → m.params ≠ [] →
        methodMangledName className m =
          className ++ "_" ++ m.name ++ paramTagSuffix m.params) := by
  obtain ⟨name, params, isCtor⟩ := m
  refine ⟨?_, ?_, ?_⟩
  · rintro (h | h) <;> simp_all [methodMangledName]
  · intro hc hn
    subst hn
    cases params <;>
      simp_all [methodMangledName, newExprCtorMangledName, String.append_assoc]
  · intro hc hp
    cases params with
    | nil => exact absurd rfl hp
    | cons p ps => simp_all [methodMangledName]

/-- C2 witness: the amended statement applied to the one-constructor class
of the counterexample. -/
theorem c2_constructor_mangling_witness :
    ((⟨"constructor", [⟨"x", .intT⟩], true⟩ : MethodSig).isConstructor = true) ∧
    methodMangledName "C" ⟨"constructor", [⟨"x", .intT⟩], true⟩ =
      newExprCtorMangledName "C" ⟨"constructor", [⟨"x", .intT⟩], true⟩ :=
  ⟨rfl, (c2_constructor_mangling "C" ⟨"constructor", [⟨"x", .intT⟩], true⟩).2.1 rfl rfl⟩

/-- C3.  The short-circuit operators emit the entry/rhs/merge structure
with a two-incoming i1 phi at merge: for and the branch goes entry→rhs when
the left operand is true and entry→merge (contributing constant false) when
it is false, so executing the emitted CFG with a false left operand
performs none of the right operand's effects and yields false; dually for
or with a true left operand the phi takes constant true from the entry
block; conversion of non-i1 operands uses icmp ne 0 for integers and
fcmp une 0.0 otherwise. -/
theorem c3_short_circuit :
    emitShortCircuit .and = some ⟨[.rhs, .merge], .rhs, .merge, .i1,
        [(.constFalse, .entry), (.rhsValue, .rhs)]⟩ ∧
    emitShortCircuit .or = some ⟨[.rhs, .merge], .merge, .rhs, .i1,
        [(.constTrue, .entry), (.rhsValue, .rhs)]⟩ ∧
    (∀ rhsEval : List String × Bool,
      (emitShortCircuit .and).map (fun e => execShortCircuit e false rhsEval) =
        some ([], false)) ∧
    (∀ rhsEval : List String × Bool,
      (emitShortCircuit .and).map (fun e => execShortCircuit e true rhsEval) =
        some (rhsEval.1, rhsEval.2)) ∧
    (∀ rhsEval : List String × Bool,
      (emitShortCircuit .or).map (fun e => execShortCircuit e true rhsEval) =
        some ([], true)) ∧
    (∀ rhsEval : List String × Bool,
      (emitShortCircuit .or).map (fun e => execShortCircuit e false rhsEval) =
        some (rhsEval.1, rhsEval.2)) ∧
    (∀ b : Bool, convertToBool ⟨.i1, b⟩ = .already ⟨.i1, b⟩) ∧
    (∀ b : Bool, convertToBool ⟨.i64, b⟩ = .icmpNE0 ⟨.i64, b⟩) ∧
    (∀ b : Bool, convertToBool ⟨.doubleT, b⟩ = .fcmpUNE0 ⟨.doubleT, b⟩) :=
  ⟨rfl, rfl, fun _ => rfl, fun _ => rfl, fun _ => rfl, fun _ => rfl,
   fun _ => rfl, fun _ => rfl, fun _ => rfl⟩

/-- C4 counterexample.  Function(Int, [Class r, Int]) and
Function(Int, [Class ri]) are not structurally equal — their parameter
counts differ — yet both mangle to the string "fcriri", because class-name
tags are not delimited inside a function type's mangled name.  So equality
of mangled names does not coincide with structural equality. -/
theorem c4_counterexample :
    typeEquals (.functionT .intT [.classT "r", .intT])
        (.functionT .intT [.classT "ri"]) = false ∧
    mangledName (.functionT .intT [.classT "r", .intT]) = "fcriri" ∧
    mangledName (.functionT .intT [.classT "ri"]) = "fcriri" :=
  ⟨rfl, rfl, rfl⟩

/-- C4 (amended).  Structural equality implies equality of mangled names —
mangling is a function of a type's structural content — but the converse
direction of the claim fails (see the counterexample): the mangled-name
function is not injective, so mangled-name comparison is coarser than
structural equality. -/
theorem c4_typeEquals_mangledName (t1 t2 : AType)
    (h : typeEquals t1 t2 = true) : mangledName t1 = mangledName t2 :=
  mangledName_eq_of_typeEquals t1 t2 h

/-- C4 witness: the amended statement applied to two Optional(Int) values
constructed fresh. -/
theorem c4_typeEquals_mangledName_witness :
    typeEquals (.optionalT .intT) (.optionalT .intT) = true ∧
    mangledName (.optionalT .intT) = mangledName (.optionalT .intT) :=
  ⟨rfl, c4_typeEquals_mangledName (.optionalT .intT) (.optionalT .intT) rfl⟩

/-- C5.  When at least one operand of a binary comparison has an optional
AST type, the comparison produces a value exactly when the operator is ==
or != and the opposite operand is a null constant; the produced value is
the optional's extracted has_value flag compared (icmp eq) to false,
negated for !=; in every other case a diagnostic is reported and no value
is produced. -/
theorem c5_optional_null_comparison (op : BOp) (leftTy rightTy : AType)
    (L R : IRValue) (h : (leftTy.isOptional || rightTy.isOptional) = true) :
    ((∃ v, binaryOptionalPath op leftTy rightTy L R = .value v) ↔
      ((op = .equal ∨ op = .notEqual) ∧
        ((leftTy.isOptional = true ∧ R.isNullConst = true) ∨
         (rightTy.isOptional = true ∧ L.isNullConst = true)))) ∧
    (∀ v, binaryOptionalPath op leftTy rightTy L R = .value v →
        v.cmpEqFalse = true ∧ v.negated = decide (op = .notEqual)) ∧
    ((¬∃ v, binaryOptionalPath op leftTy rightTy L R = .value v) →
      ∃ msg, binaryOptionalPath op leftTy rightTy L R = .diagnostic msg) := by
  simp only [binaryOptionalPath, h, if_true]
  split_ifs with h1 h2 h3
  · refine ⟨?_, ?_, ?_⟩
    · simp only [iff_def]
      constructor
      · rintro ⟨v, hv⟩; exact absurd hv (by simp)
      · rintro ⟨hop, _⟩
        rcases hop with rfl | rfl
        · exact absurd rfl h1.1
        · exact absurd rfl h1.2
    · intro v hv; exact absurd hv (by simp)
    · intro _; exact ⟨_, rfl⟩
  · have hop : op = .equal ∨ op = .notEqual := by
      by_contra hc
      push_neg at hc
      exact h1 ⟨hc.1, hc.2⟩
    simp only [Bool.and_eq_true] at h2
    refine ⟨?_, ?_, ?_⟩
    · simp only [iff_def]
      exact ⟨fun _ => ⟨hop, Or.inl ⟨h2.1, h2.2⟩⟩, fun _ => ⟨_, rfl⟩⟩
    · intro v hv
      cases hv
      exact ⟨rfl, rfl⟩
    · intro hn; exact absurd ⟨_, rfl⟩ hn
  · have hop : op = .equal ∨ op = .notEqual := by
      by_contra hc
      push_neg at hc
      exact h1 ⟨hc.1, hc.2⟩
    simp only [Bool.and_eq_true] at h3
    refine ⟨?_, ?_, ?_⟩
    · simp only [iff_def]
      exact ⟨fun _ => ⟨hop, Or.inr ⟨h3.1, h3.2⟩⟩, fun _ => ⟨_, rfl⟩⟩
    · intro v hv
      cases hv
      exact ⟨rfl, rfl⟩
    · intro hn; exact absurd ⟨_, rfl⟩ hn
  · refine ⟨?_, ?_, ?_⟩
    · simp only [iff_def]
      constructor
      · rintro ⟨v, hv⟩; exact absurd hv (by simp)
      · rintro ⟨hop, hside⟩
        rcases hside with ⟨hl, hr⟩ | ⟨hr, hl⟩
        · exact absurd (by simp [hl, hr]) h2
        · exact absurd (by simp [hr, hl]) h3
    · intro v hv; exact absurd hv (by simp)
    · intro _; exact ⟨_, rfl⟩

/-- C5 witness: the theorem applied to the comparison of an Optional(Int)
left operand against a null constant (whose resolved type is
Optional(Void)) under ==. -/
theorem c5_optional_null_comparison_witness :
    ((AType.optionalT .intT).isOptional || (AType.optionalT .voidT).isOptional) = true ∧
    ((∃ v, binaryOptionalPath .equal (.optionalT .intT) (.optionalT .voidT)
        ⟨.structT [.i1, .i64], false⟩ ⟨.structT [.i1, .i8], true⟩ = .value v) ↔
      ((BOp.equal = .equal ∨ BOp.equal = .notEqual) ∧
        (((AType.optionalT .intT).isOptional = true ∧
            (⟨.structT [.i1, .i8], true⟩ : IRValue).isNullConst = true) ∨
         ((AType.optionalT .voidT).isOptional = true ∧
            (⟨.structT [.i1, .i64], false⟩ : IRValue).isNullConst = true)))) :=
  ⟨rfl, (c5_optional_null_comparison .equal (.optionalT .intT) (.optionalT .voidT)
    ⟨.structT [.i1, .i64], false⟩ ⟨.structT [.i1, .i8], true⟩ rfl).1⟩

/-- C6.  WhileStmt::codegen emits the cond/body/after three-block
structure, pushes a loop context whose break target is the after block and
whose continue target is the cond block (so break and continue inside the
body branch there), and tests the loop condition with CreateFCmpONE against
the floating constant 0.0 whatever the condition value's type — the
condition value here is universally quantified, covering i64, i1 and double
condition values alike. -/
theorem c6_while_codegen (condVal : IRValue) (bodyTerm : Bool)
    (outer : List (LoopContext WBlock)) :
    (whileStmtCodegen condVal bodyTerm).createdBlocks =
        [.whilecond, .whilebody, .afterwhile] ∧
    (whileStmtCodegen condVal bodyTerm).condCompare = .fcmpONE0 condVal ∧
    (whileStmtCodegen condVal bodyTerm).condBrTrue = .whilebody ∧
    (whileStmtCodegen condVal bodyTerm).condBrFalse = .afterwhile ∧
    breakStmtCodegen
        ((whileStmtCodegen condVal bodyTerm).pushedContext :: outer) =
      .br .afterwhile ∧
    continueStmtCodegen
        ((whileStmtCodegen condVal bodyTerm).pushedContext :: outer) =
      .br .whilecond :=
  ⟨rfl, rfl, rfl, rfl, rfl, rfl⟩

/-- C7 counterexample.  Importing "m" from d/x.aur loads d/m.aur, but what
is inserted into the loaded-module set is the import string "m", not the
resolved path d/m.aur; a later import of "m" from e/y.aur, which resolves
to the never-loaded file e/m.aur, is nevertheless skipped.  So the set is
keyed by the literal module path, not by resolved absolute paths as the
claim states. -/
theorem c7_counterexample :
    loadImport demoFS 2 "m" "d/x.aur" ⟨[], []⟩ = (true, ⟨["m"], ["d/m.aur"]⟩) ∧
    (["m"] : List String).contains "d/m.aur" = false ∧
    resolveImport demoFS "m" "e/y.aur" = some "e/m.aur" ∧
    loadImport demoFS 2 "m" "e/y.aur" ⟨["m"], ["d/m.aur"]⟩ =
      (true, ⟨["m"], ["d/m.aur"]⟩) :=
  ⟨rfl, by decide, rfl, rfl⟩

/-- C7 (amended).  Module loading is idempotent per import string: the
loaded-module set is keyed by the import's module-path string as written
(not the resolved path); a load request whose module path is already in the
set returns success immediately with the state — including the log of
parsed files — unchanged, and a successful load inserts its module-path
string into the set. -/
theorem c7_loadedModules_keyed_by_module_path (fs : FileSystem) (fuel : Nat)
    (modulePath currentFile : String) (st : LoaderState) :
    (st.loadedModules.contains modulePath = true →
      loadImport fs (fuel + 1) modulePath currentFile st = (true, st)) ∧
    (∀ st2, loadImport fs (fuel + 1) modulePath currentFile st = (true, st2) →
      st2.loadedModules.contains modulePath = true) := by
  constructor
  · intro h
    have hm : modulePath ∈ st.loadedModules := by simpa using h
    simp [loadImport, hm]
  · intro st2 h2
    by_cases h : st.loadedModules.contains modulePath = true
    · have hm : modulePath ∈ st.loadedModules := by simpa using h
      simp [loadImport, hm] at h2
      rw [← h2]
      exact h
    · simp only [loadImport] at h2
      rw [if_neg h] at h2
      split at h2
      · exact absurd h2 (by simp)
      · split at h2
        · exact absurd h2 (by simp)
        · split at h2
          · exact absurd h2 (by simp)
          case _ st1 heq =>
            rw [Prod.mk.injEq] at h2
            rw [← h2.2]
            simp

/-- C7 witness: the amended statement applied to a state that has already
loaded the module path "m". -/
theorem c7_keyed_witness :
    ((⟨["m"], []⟩ : LoaderState).loadedModules.contains "m" = true) ∧
    loadImport demoFS 2 "m" "" ⟨["m"], []⟩ = (true, ⟨["m"], []⟩) :=
  ⟨by decide,
   (c7_loadedModules_keyed_by_module_path demoFS 1 "m" "" ⟨["m"], []⟩).1 (by decide)⟩

/-- C8.  BreakStmt::codegen and ContinueStmt::codegen on an empty
loop-context stack report a diagnostic and emit no branch (the diagnostic
outcome carries no target); on a non-empty stack they emit an unconditional
branch to the innermost context's break, respectively continue, target. -/
theorem c8_break_continue {Block : Type} (l : LoopContext Block)
    (rest : List (LoopContext Block)) :
    breakStmtCodegen ([] : List (LoopContext Block)) =
      .diagnostic "break statement must be inside a loop (while, for, or loop)" ∧
    continueStmtCodegen ([] : List (LoopContext Block)) =
      .diagnostic "continue statement must be inside a loop (while, for, or loop)" ∧
    breakStmtCodegen (l :: rest) = .br l.breakTarget ∧
    continueStmtCodegen (l :: rest) = .br l.continueTarget :=
  ⟨rfl, rfl, rfl, rfl⟩

/-- C9.  BinaryExpr::getType returns the Double type for every operator and
operand pair — including integer arithmetic, bitwise operations and
comparisons — and a consumer inferring from it, such as the array-literal
element-type inference on a literal whose first element is a binary
expression, therefore sees double. -/
theorem c9_binaryExpr_getType_double (op : BOp) (l r : AExpr)
    (rest : List AExpr) :
    exprGetType (.binary op l r) = .doubleT ∧
    arrayLiteralType (.binary op l r :: rest) = .arrayT .doubleT :=
  ⟨rfl, rfl⟩

/-- C10.  Every for statement the parser produces has an absent (null) step
expression — parseForStatement never parses one — so the step operand of
every generated for loop is the default constant 1 for integer loop
variables and 1.0 for double ones. -/
theorem c10_for_step_default {Expr Stmt : Type}
    (parseExpression : List Token → Option (Expr × List Token))
    (parseBlock : List Token → Option (List Stmt × List Token))
    (toks rest : List Token) (stmt : ForStmtNode Expr Stmt)
    (h : parseForStatement parseExpression parseBlock toks = some (stmt, rest)) :
    stmt.stepExpr = none ∧
    (∀ (varTy : LType) (stepVal : Expr → IRValue),
      forStepOperand varTy (stmt.stepExpr.map stepVal) =
        if varTy.isIntegerTy then .constInt 1 else .constDouble 1) := by
  have hstep : stmt.stepExpr = none := by
    unfold parseForStatement at h
    repeat' split at h
    all_goals try exact Option.noConfusion h
    injection h with h
    injection h with h1 h2
    rw [← h1]
  refine ⟨hstep, ?_⟩
  intro varTy stepVal
  rw [hstep]
  rfl

/-- C10 witness: the theorem applied to the concrete token stream
for i in START..END BODY with trivial sub-parsers. -/
theorem c10_for_step_default_witness :
    @parseForStatement Unit Unit
      (fun ts => some ((), ts)) (fun ts => some ([], ts))
      [⟨.For, "for"⟩, ⟨.Identifier, "i"⟩, ⟨.In, "in"⟩, ⟨.DotDot, ".."⟩] =
      some (⟨"i", (), (), none, []⟩, []) ∧
    (⟨"i", (), (), none, []⟩ : ForStmtNode Unit Unit).stepExpr = none :=
  ⟨rfl,
   (c10_for_step_default (fun ts => some ((), ts)) (fun ts => some ([], ts))
      [⟨.For, "for"⟩, ⟨.Identifier, "i"⟩, ⟨.In, "in"⟩, ⟨.DotDot, ".."⟩] []
      ⟨"i", (), (), none, []⟩ rfl).1⟩

end Aurora
